import Mathlib

/-!
Verification development for the lzaas-cli Account Request Ledger and OU
Migration Orchestrator.

The definitions below are a shallow embedding of the program:

* the Request Ledger operations of AFTManager (aft_manager.py):
  create_account_request, get_account_request, update_account_request and
  get_aft_status, over a model of the DynamoDB backing store;
* the OU tree search find_ou_by_name of migrate.py, in its two variants
  (the exact-matching one of the existing_ou command and the
  case-insensitive one of the simple command);
* the move orchestrations of the existing_ou and simple commands of
  migrate.py, with the external Organizations backend as an oracle.

Machine strings handled by the Python code are modelled as String where only
equality matters (ledger attribute values), and as lists of code points
(PyStr) where lower-casing or digit tests matter (migrate.py).
-/

namespace Lzaas

/-! ## Model of the DynamoDB backing store

An item is an attribute map, a table is a map from the request_id key to
items.  DynamoDB semantics used by aft_manager.py:

* PutItem unconditionally replaces any existing item with the same key;
* GetItem returns the item or nothing;
* UpdateItem applies the SET actions to the existing item, or, when no item
  with the key exists, creates one containing the key attribute and then
  applies the SET actions (upsert semantics);
* a table either exists or not; AFTManager._get_table creates an empty table
  on first use when it does not exist (AFTManager._create_table). -/

abbrev Item := List (String × String)

abbrev Table := List (String × Item)

def request_id_key : String := "request_id"

def status_key : String := "status"

def account_id_key : String := "account_id"

def updated_date_key : String := "updated_date"

def unknown_status : String := "unknown"

/-- Insert or replace a binding in an association list, keeping the position
of an existing binding and appending a new one at the end. -/
def upsert {α : Type} (l : List (String × α)) (k : String) (v : α) :
    List (String × α) :=
  match l with
  | [] => [(k, v)]
  | (k0, v0) :: rest =>
      if k0 = k then (k, v) :: rest else (k0, v0) :: upsert rest k v

/-- Association-list lookup (first binding wins), as Python dict access. -/
def alookup {α : Type} (l : List (String × α)) (k : String) : Option α :=
  match l with
  | [] => none
  | (k0, v0) :: rest => if k0 = k then some v0 else alookup rest k

/-- The state of the backing store: none when the table does not exist. -/
abbrev DDBState := Option Table

/-- AFTManager._get_table: load the table, creating an empty one when it does
not exist.  The backing-store state afterwards is always
some (get_table s). -/
def get_table (s : DDBState) : Table :=
  match s with
  | some t => t
  | none => []

/-- DynamoDB PutItem on the request table: unconditional replace. -/
def put_item (t : Table) (key : String) (item : Item) : Table :=
  upsert t key item

/-- Apply a list of SET actions to an item, in order. -/
def apply_updates (base : Item) (updates : Item) : Item :=
  updates.foldl (fun it kv => upsert it kv.1 kv.2) base

/-- DynamoDB UpdateItem with ReturnValues ALL_NEW: when no item with the key
exists, a fresh item holding only the key attribute is created before the
SET actions run.  Returns the new table and the new item. -/
def update_item (t : Table) (key : String) (updates : Item) : Table × Item :=
  let base :=
    match alookup t key with
    | some it => it
    | none => [(request_id_key, key)]
  let newItem := apply_updates base updates
  (upsert t key newItem, newItem)

/-! ## AFTManager ledger operations (aft_manager.py) -/

/-- AFTManager.create_account_request: load (or create) the table and PutItem
the request dictionary; returns success.  There is no conditional write: an
existing item with the same request_id is replaced.  PutItem without the key
attribute is a validation error, reported as success false. -/
def create_account_request (s : DDBState) (item : Item) : DDBState × Bool :=
  let t := get_table s
  match alookup item request_id_key with
  | none => (some t, false)
  | some rid => (some (put_item t rid item), true)

/-- AFTManager.get_account_request: load (or create) the table and GetItem by
request_id.  Returns the resulting backing-store state and the item, none
standing for the NotFound signal. -/
def get_account_request (s : DDBState) (rid : String) :
    DDBState × Option Item :=
  let t := get_table s
  (some t, alookup t rid)

/-- AFTManager.update_account_request: stamps updated_date into the given
update dictionary, then UpdateItem with the SET actions.  No existence check
is made before the write. -/
def update_account_request (s : DDBState) (rid : String) (updates : Item)
    (now : String) : DDBState × Bool × Item :=
  let t := get_table s
  let updates2 := upsert updates updated_date_key now
  let r := update_item t rid updates2
  (some r.1, true, r.2)

/-- The combined status view built by AFTManager.get_aft_status, as
constructed at its call site (the class itself lives in lzaas.core.models,
outside the sources; only the fields set there are modelled). -/
structure AFTStatus where
  request_id : String
  pipeline_status : String
  account_id : Option String
  last_updated : Option String
deriving DecidableEq, Repr

/-- Python truthiness of an optional string attribute: an absent attribute
and an empty string are both falsy. -/
def truthy (o : Option String) : Option String :=
  match o with
  | some v => if v = "" then none else some v
  | none => none

/-- AFTManager.get_aft_status: reads the request from the ledger and builds
the status view from the fields of the ledger record itself; the
pipeline_status field is the status attribute of the record (defaulting to
unknown).  No Pipeline Service client is consulted. -/
def get_aft_status (s : DDBState) (rid : String) :
    DDBState × Option AFTStatus :=
  let r := get_account_request s rid
  match r.2 with
  | none => (r.1, none)
  | some req =>
      (r.1, some
        { request_id := rid
          pipeline_status := (alookup req status_key).getD unknown_status
          account_id := truthy (alookup req account_id_key)
          last_updated := truthy (alookup req updated_date_key) })

/-! ## Python strings as code-point lists

The migrate.py code lower-cases and digit-tests strings, so these are
modelled at the code-point level (ASCII fragment of the Python semantics of
str.lower and str.isdigit used on account and OU names). -/

abbrev PyStr := List Nat

/-- Code points of a Lean string literal, to write concrete Python strings. -/
def pyS (s : String) : PyStr := s.data.map Char.toNat

/-- ASCII fragment of Python str.lower on one code point. -/
def py_lower_cp (n : Nat) : Nat :=
  if 65 ≤ n ∧ n ≤ 90 then n + 32 else n

/-- ASCII fragment of Python str.lower. -/
def py_lower (s : PyStr) : PyStr := s.map py_lower_cp

/-- One code point is an ASCII decimal digit. -/
def py_is_digit_cp (n : Nat) : Bool := 48 ≤ n && n ≤ 57

/-- Python str.isdigit (ASCII fragment): nonempty and all digits. -/
def py_isdigit (s : PyStr) : Bool := !s.isEmpty && s.all py_is_digit_cp

/-- The account-id format test of migrate.py:
source.isdigit() and len(source) == 12. -/
def is_account_id_format (s : PyStr) : Bool :=
  py_isdigit s && s.length == 12

/-! ## The OU hierarchy as a tree

The Organizations backend is assumed to expose a tree (spec section 4.2);
one node carries its id, its name and the concatenation of the pages of
list_organizational_units_for_parent for it, in backend order. -/

inductive OU : Type where
  | node (id : PyStr) (name : PyStr) (children : List OU)

/-- find_ou_by_name of the existing_ou command (migrate.py lines 263 to 272),
applied to the child list of a parent: for each child in page order, an exact
name comparison, then immediate recursion into that child before the next
sibling is examined. -/
def find_ou_by_name_existing : List OU → PyStr → Option PyStr
  | [], _ => none
  | OU.node i n cs :: rest, q =>
      if n = q then some i
      else
        match find_ou_by_name_existing cs q with
        | some r => some r
        | none => find_ou_by_name_existing rest q

/-- find_ou_by_name of the simple command (migrate.py lines 427 to 436): same
traversal, but the name comparison lower-cases both sides. -/
def find_ou_by_name_simple : List OU → PyStr → Option PyStr
  | [], _ => none
  | OU.node i n cs :: rest, q =>
      if py_lower n = py_lower q then some i
      else
        match find_ou_by_name_simple cs q with
        | some r => some r
        | none => find_ou_by_name_simple rest q

/-- The nodes of a forest in depth-first pre-order: a node, then its whole
subtree, then its later siblings. -/
def preorder : List OU → List (PyStr × PyStr)
  | [] => []
  | OU.node i n cs :: rest => (i, n) :: (preorder cs ++ preorder rest)

/-! ## The OU search over the raw backend, with a recursion-depth budget

find_ou_by_name trusts the backend to present a tree: the Python function
recurses into each listed child with no depth guard.  To analyse termination
the backend is modelled as an arbitrary parent-to-children mapping (which
may be cyclic), and the recursion depth is made explicit as fuel: one unit
of fuel is one nested call of find_ou_by_name.  An outer none result means
the computation has not returned within that call depth. -/

abbrev OrgGraph := PyStr → List (PyStr × PyStr)

/-- The sibling loop of find_ou_by_name: exact name comparison, then the
descend continuation, then the next sibling. -/
def find_fuel_loop (descend : PyStr → Option (Option PyStr)) (q : PyStr) :
    List (PyStr × PyStr) → Option (Option PyStr)
  | [] => some none
  | (cid, cname) :: rest =>
      if cname = q then some (some cid)
      else
        match descend cid with
        | none => none
        | some (some r) => some (some r)
        | some none => find_fuel_loop descend q rest

/-- find_ou_by_name over the raw backend: list the children of the parent
and run the sibling loop, descending with one unit of fuel less. -/
def find_fuel (g : OrgGraph) (q : PyStr) : Nat → PyStr → Option (Option PyStr)
  | 0, _ => none
  | fuel + 1, pid => find_fuel_loop (fun cid => find_fuel g q fuel cid) q (g pid)

/-- A backend mapping in which some OU is its own child: every node lists
the node with id A, named Alpha, as its single child. -/
def cyclic_graph : OrgGraph := fun _ => [(pyS ("A"), pyS ("Alpha"))]

/-- A backend tree that is a single chain of depth n + 1: the node at string
length n has the target as its child, every other node has one child named
Mid, one level deeper. -/
def chain_graph (n : Nat) : OrgGraph := fun s =>
  if s.length = n then [(pyS ("hit"), pyS ("Target"))]
  else [(s ++ [120], pyS ("Mid"))]

/-! ## The move orchestrations of migrate.py

The two commands that can issue the mutating move_account call are embedded
as pure functions of the command arguments and of an oracle describing the
answers of the external Organizations backend and of the interactive
confirmation.  Each returns its outcome together with the number of
move_account invocations it performed. -/

inductive MoveResult : Type where
  | invalid_account_id
  | invalid_ou_name
  | account_info_failed
  | parent_lookup_failed
  | ou_not_found
  | dry_run_reported
  | cancelled
  | crashed
  | moved
  | move_failed
deriving DecidableEq, Repr

/-- Oracle for the existing_ou command: backend answers and operator input.
describe_account and list_parents return none when the backend call raises;
roots is the Roots list of list_roots; tree is the OU forest under the first
root as the paginated child listings expose it. -/
structure OrgsEnv where
  describe_account : PyStr → Option (PyStr × PyStr)
  list_parents : PyStr → Option (List PyStr)
  roots : List PyStr
  tree : List OU
  confirm : Bool
  move_ok : Bool

/-- The existing_ou command of migrate.py (lines 204 to 354): validate the
account id format and the OU name, describe the account, list its parents,
take the first root, resolve the target OU by exact-name search, then either
report the dry run, ask for confirmation and issue move_account.  A missing
current parent makes the Python code index None, which the surrounding
handler turns into an error return before any mutating call.  The second
component counts move_account invocations. -/
def existing_ou (env : OrgsEnv) (account_id target_ou : PyStr)
    (ou_name_valid dry_run : Bool) : MoveResult × Nat :=
  if ¬is_account_id_format account_id then (MoveResult.invalid_account_id, 0)
  else if ¬ou_name_valid then (MoveResult.invalid_ou_name, 0)
  else
    match env.describe_account account_id with
    | none => (MoveResult.account_info_failed, 0)
    | some _ =>
        match env.list_parents account_id with
        | none => (MoveResult.parent_lookup_failed, 0)
        | some parents =>
            match env.roots.head? with
            | none => (MoveResult.crashed, 0)
            | some _ =>
                match find_ou_by_name_existing env.tree target_ou with
                | none => (MoveResult.ou_not_found, 0)
                | some _target_id =>
                    if dry_run then
                      match parents.head? with
                      | none => (MoveResult.crashed, 0)
                      | some _ => (MoveResult.dry_run_reported, 0)
                    else if ¬env.confirm then (MoveResult.cancelled, 0)
                    else
                      match parents.head? with
                      | none => (MoveResult.crashed, 0)
                      | some _src =>
                          if env.move_ok then (MoveResult.moved, 1)
                          else (MoveResult.move_failed, 1)

/-- Oracle for the simple command: accounts is the concatenation of the
pages of list_accounts as pairs of id and name; describe_account gives the
name for an id, none when the call raises. -/
structure SimpleEnv where
  accounts : List (PyStr × PyStr)
  describe_account : PyStr → Option PyStr
  list_parents : PyStr → Option (List PyStr)
  roots : List PyStr
  tree : List OU
  confirm : Bool
  move_ok : Bool

/-- Source-account resolution of the simple command (migrate.py lines 383 to
417): a source of exactly twelve digits is treated as an account id and
described; any other source is matched case-insensitively against the names
of the paginated account listing, first match wins. -/
def resolve_source (env : SimpleEnv) (source : PyStr) :
    Option (PyStr × PyStr) :=
  if is_account_id_format source then
    match env.describe_account source with
    | none => none
    | some nm => some (source, nm)
  else
    env.accounts.find? (fun a => decide (py_lower a.2 = py_lower source))

/-- The simple command of migrate.py (lines 364 to 522): resolve the source
account, take the first root, resolve the target OU case-insensitively, list
the parents of the account, then dry run or confirmation and move_account.
The second component counts move_account invocations. -/
def simple (env : SimpleEnv) (source target : PyStr) (dry_run : Bool) :
    MoveResult × Nat :=
  match resolve_source env source with
  | none => (MoveResult.account_info_failed, 0)
  | some acct =>
      match env.roots.head? with
      | none => (MoveResult.crashed, 0)
      | some _ =>
          match find_ou_by_name_simple env.tree target with
          | none => (MoveResult.ou_not_found, 0)
          | some _target_id =>
              match env.list_parents acct.1 with
              | none => (MoveResult.parent_lookup_failed, 0)
              | some parents =>
                  if dry_run then
                    match parents.head? with
                    | none => (MoveResult.crashed, 0)
                    | some _ => (MoveResult.dry_run_reported, 0)
                  else if ¬env.confirm then (MoveResult.cancelled, 0)
                  else
                    match parents.head? with
                    | none => (MoveResult.crashed, 0)
                    | some _src =>
                        if env.move_ok then (MoveResult.moved, 1)
                        else (MoveResult.move_failed, 1)

/-! ## Concrete fixtures used by the witnesses and counterexamples -/

def item_pending : Item :=
  [(request_id_key, ("r1" : String)), (status_key, ("pending" : String))]

def item_colliding : Item :=
  [(request_id_key, ("r1" : String)), (status_key, ("hijacked" : String))]

def c2_rid : String := "migrate-2025-01-10-abc12345"

def c2_table : Table :=
  [(c2_rid, [(request_id_key, c2_rid), (status_key, ("pending" : String))])]

/-- One OU named Sandbox. -/
def tree_sandbox : List OU :=
  [OU.node (pyS ("ou-s")) (pyS ("Sandbox")) []]

/-- Root children A (named Apps, with a child named Sandbox) and B (named
Sandbox): a deeper match inside the earlier sibling against a shallower
later sibling. -/
def tree_shadowed : List OU :=
  [OU.node (pyS ("ou-a")) (pyS ("Apps"))
     [OU.node (pyS ("ou-a-sand")) (pyS ("Sandbox")) []],
   OU.node (pyS ("ou-b")) (pyS ("Sandbox")) []]

/-- The tree of the cited example: root children A and B, in this sibling
order, each with a child named Sandbox. -/
def tree_two_sandboxes : List OU :=
  [OU.node (pyS ("ou-a")) (pyS ("A"))
     [OU.node (pyS ("ou-a-sand")) (pyS ("Sandbox")) []],
   OU.node (pyS ("ou-b")) (pyS ("B"))
     [OU.node (pyS ("ou-b-sand")) (pyS ("Sandbox")) []]]

/-- Backend oracle in which the current parent of every account is exactly
the OU that the target name resolves to. -/
def env_parent_is_target : OrgsEnv :=
  { describe_account := fun _ => some (pyS ("Prod"), pyS ("prod@acme.example"))
    list_parents := fun _ => some [pyS ("ou-sand")]
    roots := [pyS ("r-root")]
    tree := [OU.node (pyS ("ou-sand")) (pyS ("Sandbox")) []]
    confirm := true
    move_ok := true }

/-- The analogous oracle for the simple command. -/
def senv_parent_is_target : SimpleEnv :=
  { accounts := [(pyS ("999999999999"), pyS ("Prod"))]
    describe_account := fun _ => some (pyS ("Prod"))
    list_parents := fun _ => some [pyS ("ou-sand")]
    roots := [pyS ("r-root")]
    tree := [OU.node (pyS ("ou-sand")) (pyS ("Sandbox")) []]
    confirm := true
    move_ok := true }

/-! ## Lemmas about the association-list operations -/

theorem alookup_upsert_self {α : Type} (l : List (String × α)) (k : String)
    (v : α) : alookup (upsert l k v) k = some v := by
  induction l with
  | nil => simp [upsert, alookup]
  | cons hd tl ih =>
      obtain ⟨k0, v0⟩ := hd
      by_cases h : k0 = k
      · simp [upsert, alookup, h]
      · simp [upsert, alookup, h, ih]

theorem alookup_upsert_ne {α : Type} (l : List (String × α)) (k k2 : String)
    (v : α) (h : k2 ≠ k) : alookup (upsert l k v) k2 = alookup l k2 := by
  induction l with
  | nil => simp [upsert, alookup, Ne.symm h]
  | cons hd tl ih =>
      obtain ⟨k0, v0⟩ := hd
      by_cases hk : k0 = k
      · subst hk
        simp [upsert, alookup, Ne.symm h]
      · simp [upsert, alookup, hk, ih]

theorem mem_keys_of_alookup_some {α : Type} {l : List (String × α)} {k : String}
    {v : α} (h : alookup l k = some v) : k ∈ l.map Prod.fst := by
  induction l with
  | nil => simp [alookup] at h
  | cons hd tl ih =>
      obtain ⟨k0, v0⟩ := hd
      by_cases hk : k0 = k
      · simp [hk]
      · rw [alookup, if_neg hk] at h
        simp [ih h]

theorem mem_keys_upsert {α : Type} {l : List (String × α)} {k x : String}
    {v : α} (h : x ∈ (upsert l k v).map Prod.fst) :
    x ∈ l.map Prod.fst ∨ x = k := by
  induction l with
  | nil => simp [upsert] at h; simp [h]
  | cons hd tl ih =>
      obtain ⟨k0, v0⟩ := hd
      by_cases hk : k0 = k
      · rw [upsert, if_pos hk] at h
        simp at h
        rcases h with h | h
        · right; exact h
        · left; simp [h]
      · rw [upsert, if_neg hk] at h
        simp at h
        rcases h with h | h
        · left; simp [h]
        · rcases ih (by simpa using h) with hh | hh
          · left; simp [hh]
          · right; exact hh

theorem keys_nodup_upsert {α : Type} {l : List (String × α)} {k : String}
    {v : α} (h : (l.map Prod.fst).Nodup) :
    ((upsert l k v).map Prod.fst).Nodup := by
  induction l with
  | nil => simp [upsert]
  | cons hd tl ih =>
      obtain ⟨k0, v0⟩ := hd
      simp only [List.map_cons, List.nodup_cons] at h
      obtain ⟨hk0, htl⟩ := h
      by_cases hk : k0 = k
      · subst hk
        rw [upsert, if_pos rfl]
        simp only [List.map_cons, List.nodup_cons]
        exact ⟨hk0, htl⟩
      · rw [upsert, if_neg hk]
        simp only [List.map_cons, List.nodup_cons]
        refine ⟨fun hmem => ?_, ih htl⟩
        rcases mem_keys_upsert hmem with hh | hh
        · exact hk0 hh
        · exact hk hh

theorem alookup_apply_updates (base l : Item) (k : String)
    (h : (l.map Prod.fst).Nodup) :
    alookup (apply_updates base l) k =
      match alookup l k with
      | some v => some v
      | none => alookup base k := by
  induction l generalizing base with
  | nil => simp [apply_updates, alookup]
  | cons hd tl ih =>
      obtain ⟨k0, v0⟩ := hd
      simp only [List.map_cons, List.nodup_cons] at h
      obtain ⟨hk0, htl⟩ := h
      have step : apply_updates base ((k0, v0) :: tl) =
          apply_updates (upsert base k0 v0) tl := rfl
      rw [step, ih (upsert base k0 v0) htl]
      by_cases hk : k0 = k
      · subst hk
        cases htlk : alookup tl k0 with
        | some v =>
            exact absurd (mem_keys_of_alookup_some htlk) hk0
        | none =>
            simp [alookup, alookup_upsert_self]
      · cases htlk : alookup tl k with
        | some v => simp [alookup, hk, htlk]
        | none => simp [alookup, hk, htlk, alookup_upsert_ne base k0 k v0 (fun hh => hk hh.symm)]

/-! ## Lemmas about the Python string fragment -/

theorem py_is_digit_cp_of_lower {n : Nat}
    (h : py_is_digit_cp (py_lower_cp n) = true) : py_is_digit_cp n = true := by
  unfold py_lower_cp at h
  unfold py_is_digit_cp at h ⊢
  by_cases hu : 65 ≤ n ∧ n ≤ 90
  · rw [if_pos hu] at h
    simp only [Bool.and_eq_true, decide_eq_true_eq] at h
    omega
  · rwa [if_neg hu] at h

theorem py_lower_cp_of_digit {n : Nat} (h : py_is_digit_cp n = true) :
    py_lower_cp n = n := by
  unfold py_is_digit_cp at h
  simp only [Bool.and_eq_true, decide_eq_true_eq] at h
  unfold py_lower_cp
  rw [if_neg]
  omega

/-- A string whose lower-casing is all decimal digits is itself all decimal
digits of the same length. -/
theorem py_isdigit_of_lower {s : PyStr}
    (h : py_isdigit (py_lower s) = true) : py_isdigit s = true := by
  unfold py_isdigit at h ⊢
  simp only [Bool.and_eq_true, Bool.not_eq_true', List.all_eq_true] at h ⊢
  obtain ⟨hne, hall⟩ := h
  constructor
  · cases s with
    | nil => simp [py_lower] at hne
    | cons a l => simp
  · intro n hn
    exact py_is_digit_cp_of_lower (hall (py_lower_cp n) (by
      simp only [py_lower, List.mem_map]
      exact ⟨n, hn, rfl⟩))

theorem py_lower_eq_self_of_digits {s : PyStr}
    (h : ∀ n ∈ s, py_is_digit_cp n = true) : py_lower s = s := by
  induction s with
  | nil => rfl
  | cons a l ih =>
      have ha := py_lower_cp_of_digit (h a (List.mem_cons_self a l))
      have hl := ih (fun n hn => h n (List.mem_cons_of_mem a hn))
      simp only [py_lower, List.map_cons] at hl ⊢
      rw [ha, hl]

/-! ## Traversal-order characterisation of find_ou_by_name -/

/-- The exact-matching search returns the id of the first node in depth-first
pre-order whose name equals the query: each node is compared and its whole
subtree searched before any later sibling is examined. -/
theorem find_existing_eq_preorder (l : List OU) (q : PyStr) :
    find_ou_by_name_existing l q =
      ((preorder l).find? (fun p => decide (p.2 = q))).map Prod.fst := by
  induction l, q using find_ou_by_name_existing.induct with
  | case1 q => simp [find_ou_by_name_existing, preorder]
  | case2 i cs rest q => simp [find_ou_by_name_existing, preorder]
  | case3 i n cs rest q h r hr ih =>
      rw [hr] at ih
      simp only [find_ou_by_name_existing, if_neg h, hr, preorder]
      rw [List.find?_cons_of_neg _ (by simpa using h), List.find?_append]
      cases hcs : List.find? (fun p => decide (p.2 = q)) (preorder cs) with
      | none => rw [hcs] at ih; simp at ih
      | some p =>
          rw [hcs] at ih
          simpa [Option.or] using ih
  | case4 i n cs rest q h hnone ihcs ihrest =>
      rw [hnone] at ihcs
      simp only [find_ou_by_name_existing, if_neg h, hnone, preorder]
      rw [List.find?_cons_of_neg _ (by simpa using h), List.find?_append]
      cases hcs : List.find? (fun p => decide (p.2 = q)) (preorder cs) with
      | some p => rw [hcs] at ihcs; simp at ihcs
      | none => simpa [Option.or] using ihrest

/-- The case-insensitive search returns the id of the first node in
depth-first pre-order whose lower-cased name equals the lower-cased query. -/
theorem find_simple_eq_preorder (l : List OU) (q : PyStr) :
    find_ou_by_name_simple l q =
      ((preorder l).find?
        (fun p => decide (py_lower p.2 = py_lower q))).map Prod.fst := by
  induction l, q using find_ou_by_name_simple.induct with
  | case1 q => simp [find_ou_by_name_simple, preorder]
  | case2 i n cs rest q h =>
      simp [find_ou_by_name_simple, preorder, h]
  | case3 i n cs rest q h r hr ih =>
      rw [hr] at ih
      simp only [find_ou_by_name_simple, if_neg h, hr, preorder]
      rw [List.find?_cons_of_neg _ (by simpa using h), List.find?_append]
      cases hcs :
          List.find? (fun p => decide (py_lower p.2 = py_lower q))
            (preorder cs) with
      | none => rw [hcs] at ih; simp at ih
      | some p =>
          rw [hcs] at ih
          simpa [Option.or] using ih
  | case4 i n cs rest q h hnone ihcs ihrest =>
      rw [hnone] at ihcs
      simp only [find_ou_by_name_simple, if_neg h, hnone, preorder]
      rw [List.find?_cons_of_neg _ (by simpa using h), List.find?_append]
      cases hcs :
          List.find? (fun p => decide (py_lower p.2 = py_lower q))
            (preorder cs) with
      | some p => rw [hcs] at ihcs; simp at ihcs
      | none => simpa [Option.or] using ihrest

/-! ## Behaviour of the traversal on cyclic and on deep hierarchies -/

/-- On the cyclic backend, searching for a name that never matches does not
return within any recursion depth: the traversal has no depth guard and no
failure outcome, it just descends forever. -/
theorem find_fuel_cyclic_none (fuel : Nat) :
    find_fuel cyclic_graph (pyS ("Sandbox")) fuel (pyS ("Root")) = none := by
  have key : ∀ f : Nat,
      find_fuel cyclic_graph (pyS ("Sandbox")) f (pyS ("A")) = none := by
    intro f
    induction f with
    | zero => rfl
    | succ f ih =>
        simp only [find_fuel, cyclic_graph, find_fuel_loop]
        rw [if_neg (by decide), ih]
  cases fuel with
  | zero => rfl
  | succ f =>
      simp only [find_fuel, cyclic_graph, find_fuel_loop]
      rw [if_neg (by decide), key f]

theorem find_fuel_chain_succeeds_from (n : Nat) : ∀ (k : Nat) (s : PyStr),
    s.length + k = n →
    find_fuel (chain_graph n) (pyS ("Target")) (k + 1) s =
      some (some (pyS ("hit"))) := by
  intro k
  induction k with
  | zero =>
      intro s hs
      simp only [Nat.add_zero] at hs
      simp only [find_fuel, chain_graph, if_pos hs, find_fuel_loop]
      simp
  | succ k ih =>
      intro s hs
      have hne : ¬s.length = n := by omega
      have hinner := ih (s ++ [120]) (by simp [List.length_append]; omega)
      conv_lhs => rw [find_fuel]
      simp only [chain_graph, if_neg hne, find_fuel_loop]
      rw [if_neg (by decide), hinner]

/-- For every n, the search completes successfully on the chain backend of
depth n + 1 after descending n + 1 nested calls: there is no maximum depth at
which the traversal is cut off. -/
theorem find_fuel_chain_succeeds (n : Nat) :
    find_fuel (chain_graph n) (pyS ("Target")) (n + 1) [] =
      some (some (pyS ("hit"))) :=
  find_fuel_chain_succeeds_from n n [] (by simp)

/-! ## The claims -/

/-- C1: the claim that create_account_request fails with AlreadyExists on a
colliding request_id and leaves the stored record unchanged is false: on a
ledger holding a record for r1, putting a new request with the same
request_id succeeds and replaces the stored record. -/
theorem C1_counterexample :
    create_account_request (some [(("r1" : String), item_pending)])
        item_colliding
      = (some [(("r1" : String), item_colliding)], true) ∧
    item_colliding ≠ item_pending := by
  constructor
  · rfl
  · decide

/-- C1 (amended): create_account_request never fails on a colliding
request_id: it reports success and silently replaces the stored record with
the new one; records under other request_ids are unchanged. -/
theorem C1_put_overwrites (t : Table) (rid : String) (old item : Item)
    (hold : alookup t rid = some old)
    (hkey : alookup item request_id_key = some rid) :
    create_account_request (some t) item = (some (upsert t rid item), true) ∧
    alookup (upsert t rid item) rid = some item ∧
    ∀ r, r ≠ rid → alookup (upsert t rid item) r = alookup t r := by
  refine ⟨?_, alookup_upsert_self t rid item,
    fun r hr => alookup_upsert_ne t rid r item hr⟩
  unfold create_account_request get_table put_item
  rw [hkey]

theorem C1_witness :
    alookup (upsert [(("r1" : String), item_pending)] ("r1") item_colliding)
        ("r1")
      = some item_colliding :=
  (C1_put_overwrites [(("r1" : String), item_pending)] ("r1") item_pending
    item_colliding (by rfl) (by rfl)).2.1

/-- C2: the claim that get_aft_status obtains the reported pipeline status by
querying the Pipeline Service is false: for a ledger record with status
pending, the combined view reports pipeline status pending — the status
attribute of the ledger record itself — not the InProgress state of any
pipeline execution; no Pipeline Service client appears in its definition. -/
theorem C2_counterexample :
    ((get_aft_status (some c2_table) c2_rid).2.map
        AFTStatus.pipeline_status) = some ("pending") ∧
    ¬((get_aft_status (some c2_table) c2_rid).2.map
        AFTStatus.pipeline_status) = some ("InProgress") ∧
    (get_aft_status (some c2_table) c2_rid).1 = some c2_table := by
  refine ⟨rfl, ?_, rfl⟩
  decide

/-- C2 (amended): get_aft_status builds the combined view from the ledger
record alone: the reported pipeline status equals the status attribute
stored in the ledger record, and the backing store is left unchanged. -/
theorem C2_status_from_ledger (t : Table) (rid : String) (req : Item)
    (st : String) (hreq : alookup t rid = some req)
    (hst : alookup req status_key = some st) :
    (get_aft_status (some t) rid).1 = some t ∧
    (get_aft_status (some t) rid).2 =
      some { request_id := rid,
             pipeline_status := st,
             account_id := truthy (alookup req account_id_key),
             last_updated := truthy (alookup req updated_date_key) } := by
  unfold get_aft_status get_account_request get_table
  simp [hreq, hst]

theorem C2_witness :
    (get_aft_status (some c2_table) c2_rid).2 =
      some { request_id := c2_rid,
             pipeline_status := ("pending"),
             account_id := none,
             last_updated := none } := by
  have h := (C2_status_from_ledger c2_table c2_rid
    [(request_id_key, c2_rid), (status_key, ("pending" : String))]
    ("pending") (by rfl) (by rfl)).2
  simpa using h

/-- C3: the claim that find_ou_by_name always compares node names
case-insensitively is false for the existing_ou variant: on a tree whose
only node is named Sandbox, the query Sandbox resolves but the query
sandbox — the same name up to letter case — does not. -/
theorem C3_counterexample :
    find_ou_by_name_existing tree_sandbox (pyS ("Sandbox"))
      = some (pyS ("ou-s")) ∧
    find_ou_by_name_existing tree_sandbox (pyS ("sandbox")) = none ∧
    py_lower (pyS ("Sandbox")) = py_lower (pyS ("sandbox")) := by
  refine ⟨?_, ?_, by decide⟩ <;>
    simp [tree_sandbox, find_ou_by_name_existing, pyS]

/-- C3 (amended): only the simple variant of find_ou_by_name compares names
case-insensitively — two queries equal up to lower-casing resolve to the
same node — while the existing_ou variant requires an exact, case-sensitive
name match (it returns the first pre-order node whose name equals the query
exactly). -/
theorem C3_case_sensitivity_split (l : List OU) (q1 q2 q : PyStr)
    (h : py_lower q1 = py_lower q2) :
    find_ou_by_name_simple l q1 = find_ou_by_name_simple l q2 ∧
    find_ou_by_name_existing l q =
      ((preorder l).find? (fun p => decide (p.2 = q))).map Prod.fst := by
  refine ⟨?_, find_existing_eq_preorder l q⟩
  rw [find_simple_eq_preorder, find_simple_eq_preorder]
  simp only [h]

theorem C3_witness :
    find_ou_by_name_simple tree_sandbox (pyS ("SANDBOX"))
      = find_ou_by_name_simple tree_sandbox (pyS ("sandbox")) :=
  (C3_case_sensitivity_split tree_sandbox (pyS ("SANDBOX"))
    (pyS ("sandbox")) (pyS ("x")) (by decide)).1

/-- C4: the claim that the traversal exhausts all siblings at a node before
descending into any child is false: on the tree whose root children are A
(named Apps, with a child named Sandbox) and B (named Sandbox), the search
for Sandbox returns the child of A, found by descending into A before the
sibling B was examined; sibling-first order would have returned B. -/
theorem C4_counterexample :
    find_ou_by_name_existing tree_shadowed (pyS ("Sandbox"))
      = some (pyS ("ou-a-sand")) ∧
    find_ou_by_name_existing tree_shadowed (pyS ("Sandbox"))
      ≠ some (pyS ("ou-b")) := by
  constructor <;>
    simp [tree_shadowed, find_ou_by_name_existing, pyS]

/-- C4 (amended): the traversal checks each child and immediately descends
into its whole subtree before examining the next sibling, so the match
returned is the first one in depth-first pre-order (node, then its subtree,
then later siblings), not in sibling-exhausted order; in the cited example —
root children A before B, each with a child named Sandbox — both variants
return the child of A. -/
theorem C4_preorder_not_sibling_first (l : List OU) (q : PyStr) :
    find_ou_by_name_simple l q =
      ((preorder l).find?
        (fun p => decide (py_lower p.2 = py_lower q))).map Prod.fst ∧
    find_ou_by_name_existing tree_two_sandboxes (pyS ("Sandbox"))
      = some (pyS ("ou-a-sand")) ∧
    find_ou_by_name_simple tree_two_sandboxes (pyS ("Sandbox"))
      = some (pyS ("ou-a-sand")) := by
  refine ⟨find_simple_eq_preorder l q, ?_, ?_⟩
  · simp [tree_two_sandboxes, find_ou_by_name_existing, pyS]
  · simp [tree_two_sandboxes, find_ou_by_name_simple, pyS]
    decide

/-- C5: the claim that update_account_request fails with NotFound on an
absent request_id and creates no record is false: on an empty ledger,
updating the absent id rX succeeds and creates a record holding the key,
the given field and the stamped timestamp. -/
theorem C5_counterexample :
    update_account_request (some []) ("rX")
        [(status_key, ("completed" : String))] ("2025-01-10T00:00:00")
      = (some [(("rX" : String),
          [(request_id_key, ("rX" : String)),
           (status_key, ("completed" : String)),
           (updated_date_key, ("2025-01-10T00:00:00" : String))])],
         true,
         [(request_id_key, ("rX" : String)),
          (status_key, ("completed" : String)),
          (updated_date_key, ("2025-01-10T00:00:00" : String))]) := by
  rfl

/-- C5 (amended): update_account_request never fails with NotFound: DynamoDB
UpdateItem upserts, so an absent request_id gets a fresh record holding the
key attribute plus the given fields; a present request_id has exactly the
given fields merged into its record; in both cases the update timestamp is
stamped, the updated record is stored under rid and all other records are
unchanged. -/
theorem C5_update_upserts (t : Table) (rid : String) (upd : Item)
    (now : String) (hnodup : (upd.map Prod.fst).Nodup) :
    update_account_request (some t) rid upd now
      = (some (upsert t rid
          (apply_updates ((alookup t rid).getD [(request_id_key, rid)])
            (upsert upd updated_date_key now))), true,
         apply_updates ((alookup t rid).getD [(request_id_key, rid)])
           (upsert upd updated_date_key now)) ∧
    alookup (apply_updates ((alookup t rid).getD [(request_id_key, rid)])
        (upsert upd updated_date_key now)) updated_date_key
      = some now ∧
    alookup (upsert t rid
        (apply_updates ((alookup t rid).getD [(request_id_key, rid)])
          (upsert upd updated_date_key now))) rid
      = some (apply_updates ((alookup t rid).getD [(request_id_key, rid)])
          (upsert upd updated_date_key now)) ∧
    ∀ r, r ≠ rid →
      alookup (upsert t rid
          (apply_updates ((alookup t rid).getD [(request_id_key, rid)])
            (upsert upd updated_date_key now))) r
        = alookup t r := by
  refine ⟨?_, ?_, alookup_upsert_self _ _ _,
    fun r hr => alookup_upsert_ne _ _ _ _ hr⟩
  · unfold update_account_request get_table update_item
    cases htr : alookup t rid <;> simp [htr]
  · rw [alookup_apply_updates _ _ _ (keys_nodup_upsert hnodup),
      alookup_upsert_self]

theorem C5_witness :
    alookup (apply_updates
        ((alookup ([] : Table) ("rX")).getD [(request_id_key, ("rX"))])
        (upsert [(status_key, ("completed" : String))] updated_date_key
          ("2025-01-10T00:00:00")))
      updated_date_key = some ("2025-01-10T00:00:00") :=
  (C5_update_upserts [] ("rX") [(status_key, ("completed" : String))]
    ("2025-01-10T00:00:00") (by decide)).2.1

/-- C6: the claim that a move whose resolved target OU equals the current
parent reports AlreadyInTargetOU with zero mutating calls is false: with the
current parent equal to the resolved target, the existing_ou command
confirms and issues the move_account call once, reporting an ordinary
successful move. -/
theorem C6_counterexample :
    env_parent_is_target.list_parents (pyS ("123456789012"))
      = some [pyS ("ou-sand")] ∧
    find_ou_by_name_existing env_parent_is_target.tree (pyS ("Sandbox"))
      = some (pyS ("ou-sand")) ∧
    existing_ou env_parent_is_target (pyS ("123456789012"))
        (pyS ("Sandbox")) true false
      = (MoveResult.moved, 1) := by
  have hfmt : is_account_id_format (pyS ("123456789012")) = true := by decide
  refine ⟨rfl, ?_, ?_⟩
  · simp [env_parent_is_target, find_ou_by_name_existing]
  · simp [existing_ou, env_parent_is_target, find_ou_by_name_existing, hfmt]

/-- C6 (amended): neither command compares the current parent with the
resolved target OU: whenever planning succeeds with the current parent equal
to the resolved target, dry-run is off and the operator confirms, the
mutating move_account call is issued exactly once and the outcome is an
ordinary moved or move_failed report, never a distinct AlreadyInTargetOU
one. -/
theorem C6_no_same_parent_check
    (envE : OrgsEnv) (envS : SimpleEnv)
    (aid tou src tgt pid pid2 rt rt2 : PyStr)
    (ps ps2 : List PyStr) (acct : PyStr × PyStr) (acct2 : PyStr × PyStr)
    (hfmt : is_account_id_format aid = true)
    (hacct : envE.describe_account aid = some acct)
    (hpar : envE.list_parents aid = some (pid :: ps))
    (hroot : envE.roots.head? = some rt)
    (hfind : find_ou_by_name_existing envE.tree tou = some pid)
    (hconf : envE.confirm = true)
    (hsrc : resolve_source envS src = some acct2)
    (hroot2 : envS.roots.head? = some rt2)
    (hfind2 : find_ou_by_name_simple envS.tree tgt = some pid2)
    (hpar2 : envS.list_parents acct2.1 = some (pid2 :: ps2))
    (hconf2 : envS.confirm = true) :
    existing_ou envE aid tou true false
      = ((if envE.move_ok then MoveResult.moved else MoveResult.move_failed),
         1) ∧
    simple envS src tgt false
      = ((if envS.move_ok then MoveResult.moved else MoveResult.move_failed),
         1) := by
  constructor
  · unfold existing_ou
    rw [hacct, hpar, hroot, hfind]
    cases hmo : envE.move_ok <;> simp [hfmt, hconf, hmo]
  · unfold simple
    rw [hsrc, hroot2, hfind2]
    cases hmo : envS.move_ok <;> simp [hpar2, hconf2, hmo]

theorem C6_witness :
    existing_ou env_parent_is_target (pyS ("123456789012"))
        (pyS ("Sandbox")) true false
      = (MoveResult.moved, 1) ∧
    simple senv_parent_is_target (pyS ("Prod")) (pyS ("Sandbox")) false
      = (MoveResult.moved, 1) := by
  have h := C6_no_same_parent_check env_parent_is_target
    senv_parent_is_target (pyS ("123456789012")) (pyS ("Sandbox"))
    (pyS ("Prod")) (pyS ("Sandbox")) (pyS ("ou-sand")) (pyS ("ou-sand"))
    (pyS ("r-root")) (pyS ("r-root")) [] []
    (pyS ("Prod"), pyS ("prod@acme.example"))
    (pyS ("999999999999"), pyS ("Prod"))
    (by decide) rfl rfl rfl
    (by simp [env_parent_is_target, find_ou_by_name_existing]) rfl
    (by rfl) rfl
    (by simp [senv_parent_is_target, find_ou_by_name_simple]) rfl rfl
  simpa [env_parent_is_target, senv_parent_is_target] using h

/-- C7: the mutating move_account call is issued only when planning fully
succeeded — the account was described, a current parent was listed, a root
exists, the target OU name resolved — dry-run mode is off and the operator
confirmed; contrapositively, in dry-run mode or when the target OU is
unresolvable the call count is zero.  This holds for both commands. -/
theorem C7_no_mutation_without_successful_planning
    (envE : OrgsEnv) (aid tou : PyStr) (v d : Bool)
    (envS : SimpleEnv) (src tgt : PyStr) (d2 : Bool) :
    ((existing_ou envE aid tou v d).2 ≠ 0 →
      d = false ∧ envE.confirm = true ∧
      (∃ a, envE.describe_account aid = some a) ∧
      (∃ ps p, envE.list_parents aid = some ps ∧ ps.head? = some p) ∧
      (∃ tid, find_ou_by_name_existing envE.tree tou = some tid)) ∧
    ((simple envS src tgt d2).2 ≠ 0 →
      d2 = false ∧ envS.confirm = true ∧
      (∃ a, resolve_source envS src = some a ∧
        ∃ ps p, envS.list_parents a.1 = some ps ∧ ps.head? = some p) ∧
      (∃ tid, find_ou_by_name_simple envS.tree tgt = some tid)) := by
  constructor
  · intro h
    unfold existing_ou at h
    repeat' split at h
    all_goals try exact absurd rfl h
    all_goals simp_all
  · intro h
    unfold simple at h
    repeat' split at h
    all_goals try exact absurd rfl h
    all_goals simp_all

theorem C7_witness :
    (existing_ou env_parent_is_target (pyS ("123456789012"))
        (pyS ("Sandbox")) true true).2 = 0 ∧
    (simple senv_parent_is_target (pyS ("Prod")) (pyS ("NoSuchOU"))
        false).2 = 0 := by
  constructor
  · by_contra h
    have hc := (C7_no_mutation_without_successful_planning
      env_parent_is_target (pyS ("123456789012")) (pyS ("Sandbox")) true true
      senv_parent_is_target (pyS ("Prod")) (pyS ("Sandbox")) false).1 h
    simp at hc
  · by_contra h
    have hc := (C7_no_mutation_without_successful_planning
      env_parent_is_target (pyS ("123456789012")) (pyS ("Sandbox")) true true
      senv_parent_is_target (pyS ("Prod")) (pyS ("NoSuchOU")) false).2 h
    obtain ⟨-, -, -, tid, hfind⟩ := hc
    have hnone : find_ou_by_name_simple senv_parent_is_target.tree
        (pyS ("NoSuchOU")) = none := by
      simp [senv_parent_is_target, find_ou_by_name_simple]
      decide
    rw [hnone] at hfind
    exact absurd hfind (by simp)

/-- C8: the claim that get_account_request has no side effect on the backing
store is false on a state where the table does not yet exist: the get
creates the (empty) table. -/
theorem C8_counterexample :
    (get_account_request none ("r1")).1 = some [] ∧
    (get_account_request none ("r1")).1 ≠ none ∧
    (get_account_request none ("r1")).2 = none := by
  refine ⟨rfl, ?_, rfl⟩
  decide

/-- C8 (amended): get_account_request returns the stored record or none and
never creates or modifies any record (the set of records is unchanged); when
the table already exists the backing-store state is fully unchanged; only
when the table does not yet exist is it created, empty, as a side effect of
the get. -/
theorem C8_get_is_readonly_on_records (s : DDBState) (rid : String) :
    (get_account_request s rid).2 = alookup (get_table s) rid ∧
    (get_account_request s rid).1 = some (get_table s) ∧
    (∀ t, s = some t → (get_account_request s rid).1 = s) := by
  refine ⟨rfl, rfl, fun t ht => ?_⟩
  subst ht
  rfl

theorem C8_witness :
    (get_account_request (some c2_table) c2_rid).1 = some c2_table :=
  (C8_get_is_readonly_on_records (some c2_table) c2_rid).2.2 c2_table rfl

/-- C9: the claim that the traversal enforces a maximum depth and fails with
MalformedHierarchy when it is exceeded is false: on a backend in which an OU
is its own child, the search for a never-matching name has neither returned
a result nor failed after a recursion depth of one thousand — there is no
depth guard and no failure outcome, the code just keeps descending. -/
theorem C9_counterexample :
    find_fuel cyclic_graph (pyS ("Sandbox")) 1000 (pyS ("Root")) = none :=
  find_fuel_cyclic_none 1000

/-- C9 (amended): find_ou_by_name has no maximum-depth guard and no
MalformedHierarchy failure: on the cyclic backend the search never completes
at any recursion depth (unbounded recursion), while for every n the search
completes successfully on a chain hierarchy after descending n + 1 nested
calls, so no depth bound cuts the traversal off. -/
theorem C9_no_depth_guard :
    (∀ fuel,
      find_fuel cyclic_graph (pyS ("Sandbox")) fuel (pyS ("Root")) = none) ∧
    (∀ n,
      find_fuel (chain_graph n) (pyS ("Target")) (n + 1) []
        = some (some (pyS ("hit")))) :=
  ⟨find_fuel_cyclic_none, find_fuel_chain_succeeds⟩

/-- C10: in the simple command, a source of exactly twelve decimal digits is
resolved through describe_account only — independent of the account listing —
while name matching over the listing happens only for sources that are not
twelve digits; consequently an account whose name is itself a twelve-digit
string can never be found by name through this command. -/
theorem C10_twelve_digit_sources_resolve_by_id
    (env : SimpleEnv) (src : PyStr) :
    (is_account_id_format src = true →
      resolve_source env src =
        (env.describe_account src).map (fun nm => (src, nm))) ∧
    (is_account_id_format src = false →
      resolve_source env src =
        env.accounts.find? (fun a => decide (py_lower a.2 = py_lower src))) ∧
    (∀ i nm, is_account_id_format src = false →
      env.accounts.find? (fun a => decide (py_lower a.2 = py_lower src))
        = some (i, nm) →
      is_account_id_format nm = false) := by
  refine ⟨fun h => ?_, fun h => ?_, fun i nm h hfind => ?_⟩
  · unfold resolve_source
    rw [if_pos h]
    cases env.describe_account src <;> simp
  · unfold resolve_source
    rw [if_neg (by simp [h])]
  · by_contra hfmt
    simp only [Bool.not_eq_false] at hfmt
    have hp := List.find?_some hfind
    simp only [decide_eq_true_eq] at hp
    unfold is_account_id_format at hfmt h
    simp only [Bool.and_eq_true, beq_iff_eq] at hfmt
    obtain ⟨hdig, hlen⟩ := hfmt
    have hdig2 : ∀ n ∈ nm, py_is_digit_cp n = true := by
      unfold py_isdigit at hdig
      simp only [Bool.and_eq_true, List.all_eq_true] at hdig
      exact hdig.2
    have hself : py_lower nm = nm := py_lower_eq_self_of_digits hdig2
    rw [hself] at hp
    have hsrc_dig : py_isdigit src = true :=
      py_isdigit_of_lower (by rw [← hp]; exact hdig)
    have hsrc_len : src.length = 12 := by
      rw [hp] at hlen
      simpa [py_lower] using hlen
    simp [hsrc_dig, hsrc_len] at h

theorem C10_witness :
    resolve_source senv_parent_is_target (pyS ("123456789012"))
      = some (pyS ("123456789012"), pyS ("Prod")) ∧
    is_account_id_format (pyS ("999999999999")) = true := by
  constructor
  · have h := (C10_twelve_digit_sources_resolve_by_id senv_parent_is_target
      (pyS ("123456789012"))).1 (by decide)
    simpa [senv_parent_is_target] using h
  · decide

end Lzaas
